import Mathlib

/-!
Shallow embedding of the Bird Buddy GraphQL client
(`src/birdbuddy/client.py`) together with proofs about its specified
behaviour.  The remote service is modelled by a scripted list of
executor responses consumed in order; every issued request is recorded
in a trace, and every value handed to diagnostic output is recorded in
a diagnostics list, so that redaction, retry counts and state changes
are all observable in the model.
-/

/-- Timestamps: datetimes, totally ordered. -/
abbrev Ts := Nat

/-- One feeder record inside a profile (`me`) payload: an id plus the
remaining field assignments. -/
structure FeederRecord where
  id : String
  fields : List (String × String)
deriving DecidableEq

/-- Modelled from the spec: the `Feeder` entity (`birdbuddy/feeder.py` is
not in `src/`).  Per the spec, `update` merges fields into the existing
entity: incoming overwrites matching fields, absent fields are retained. -/
structure Feeder where
  fields : List (String × String)
deriving DecidableEq

/-- Python-dict lookup on an association list. -/
def dictGet {α : Type} (m : List (String × α)) (k : String) : Option α :=
  match m with
  | [] => none
  | (k', v) :: rest => if k' = k then some v else dictGet rest k

/-- Python-dict assignment: replace in place when the key exists,
append otherwise (insertion order preserved, as for a Python `dict`). -/
def dictSet {α : Type} (m : List (String × α)) (k : String) (v : α) :
    List (String × α) :=
  match m with
  | [] => [(k, v)]
  | (k', v') :: rest => if k' = k then (k, v) :: rest else (k', v') :: dictSet rest k v

/-- The keys of an association list, in order. -/
def dictKeys {α : Type} (m : List (String × α)) : List String :=
  m.map Prod.fst

/-- Modelled from the spec: `Feeder.update` field-merge semantics. -/
def Feeder.update (fd : Feeder) (f : FeederRecord) : Feeder :=
  ⟨f.fields.foldl (fun m kv => dictSet m kv.1 kv.2) fd.fields⟩

/-- Modelled from the spec: constructing a `Feeder` from a record. -/
def Feeder.ofRecord (f : FeederRecord) : Feeder :=
  ⟨f.fields⟩

/-- A `me` payload: `empty` stands for an absent/falsy record, `record`
for a truthy record carrying its (possibly empty) feeder list. -/
inductive MeData where
  | empty
  | record (feeders : List FeederRecord)
deriving DecidableEq

/-- A collection record from the `collections` payload: its remote type
tag (`__typename`) and its id. -/
structure CollectionRecord where
  typename : String
  id : String
deriving DecidableEq

/-- A feed node: id, type tag, creation timestamp. -/
structure FeedNodeE where
  nodeId : String
  nodeType : String
  createdAt : Ts
deriving DecidableEq

/-- The feed-node type tag of new postcards. -/
def newPostcardType : String := "NewPostcard"

/-- Modelled from the spec: sighting finishing strategies
(`birdbuddy/birds.py` is not in `src/`): `Recognized`, `ManualSelection`,
and other unsupported values. -/
inductive Strategy where
  | recognized
  | manualSelection
  | unsupported (tag : String)
deriving DecidableEq

/-- Modelled from the spec: one sighting inside a report — its cover
media id and whether it is unlocked. -/
structure SightingE where
  coverMedia : String
  isUnlocked : Bool
deriving DecidableEq

/-- Modelled from the spec: a sighting report — token, finishing
strategy, ordered sightings. -/
structure ReportE where
  token : String
  finishingStrategy : Strategy
  sightings : List SightingE
deriving DecidableEq

/-- The duck-typed argument of `sighting_from_postcard`: a raw id
string, a feed node, or any other Python value. -/
inductive PostcardArg where
  | str (s : String)
  | node (n : FeedNodeE)
  | otherVal
deriving DecidableEq

/-- Modelled from the spec: the converted sighting report, carrying a
back-reference to the originating postcard argument. -/
structure PostcardSighting where
  report : ReportE
  postcard : Option PostcardArg
deriving DecidableEq

/-- The argument of `finish_postcard`: either an actual
`PostcardSighting` or a value failing the `isinstance` check. -/
inductive FinishArg where
  | valid (ps : PostcardSighting)
  | notASighting
deriving DecidableEq

/-- The GraphQL query documents the client sends, by identity. -/
inductive Query where
  | signIn
  | refreshTokenQ
  | meQ
  | feedQ
  | postcardToSighting
  | finishSighting
  | collectionsQ
  | dumpSchema
deriving DecidableEq

/-- The variable payloads the client builds for its queries. -/
inductive Variables where
  | noVars
  | signInVars (email password : String)
  | refreshVars (token : String)
  | feedVars (first : Nat) (after : Option String)
  | postcardVars (feedItemId : String)
  | finishVars (feedItemId : String)
      (defaultCoverMedia notSelectedMediaIds : List String)
      (reportToken : String)
deriving DecidableEq

/-- Headers sent with a request: none (auth=False) or a bearer header
built from the current access token (`Bearer None` when absent, as the
Python f-string would produce). -/
inductive Headers where
  | noAuth
  | bearer (token : Option String)
deriving DecidableEq

/-- A successful response's unwrapped `data` payload, by operation. -/
inductive GqlData where
  | authSignIn (accessToken refreshToken : Option String) (me : MeData)
  | authRefresh (accessToken refreshToken : Option String)
  | meData (me : MeData)
  | meFeed (nodes : List FeedNodeE)
  | meCollections (cols : List CollectionRecord)
  | sightingCreate (r : ReportE)
  | finishResult (success : Bool)
  | otherData
deriving DecidableEq

/-- What one executor invocation yields, as the client distinguishes
it: no/non-dict body; a non-empty `errors` list (token-expired or
other, the classification `GraphqlError.raise_errors` performs per the
spec — `birdbuddy/exceptions.py` is not in `src/`); a body whose `data`
is missing or not a dict; or a usable `data` payload. -/
inductive ExecResult where
  | noBody
  | withErrors (tokenExpired : Bool)
  | badData
  | withData (d : GqlData)
deriving DecidableEq

/-- The error conditions the embedded code can raise. -/
inductive BBError where
  | noResponse
  | authTokenExpired
  | graphqlOther
  | unexpectedResponse
  | authenticationFailed
  | assertionFailed
  | keyErr
  | nameErr
  | attributeErr
deriving DecidableEq

/-- The documented error kinds of the client (`NoResponseError`,
`AuthTokenExpiredError`, `GraphqlError`, `UnexpectedResponseError`,
`AuthenticationFailedError`). -/
def documentedErrors : List BBError :=
  [BBError.noResponse, BBError.authTokenExpired, BBError.graphqlOther,
   BBError.unexpectedResponse, BBError.authenticationFailed]

/-- Modelled from the spec: remote-reported error kinds are the ones
caught by `except GraphqlError` in login/refresh. -/
def isGraphqlErr (e : BBError) : Bool :=
  match e with
  | BBError.graphqlOther => true
  | BBError.authTokenExpired => true
  | _ => false

/-- A value passed to diagnostic output: either the raw value or the
structured redaction marker produced by `_redact`. -/
inductive RedactedVal (α : Type) where
  | raw (a : α)
  | marker
deriving DecidableEq

/-- Embeds `_redact(data, redacted)`: the marker if `redacted`, else the data. -/
def pyRedact {α : Type} (data : α) (redacted : Bool) : RedactedVal α :=
  if redacted then RedactedVal.marker else RedactedVal.raw data

/-- One diagnostic-output record of the pipeline: the variables value
logged before the request, or the response value logged after it. -/
inductive DiagEntry where
  | vars (v : RedactedVal Variables)
  | resp (d : RedactedVal GqlData)
deriving DecidableEq

/-- One issued request, as recorded in the trace. -/
structure ReqEntry where
  query : Query
  vars : Variables
  headers : Headers
deriving DecidableEq

/-- The full client state: the Python instance fields plus the scripted
environment (`env`), the request trace and the diagnostics list. -/
structure St where
  email : String
  password : String
  accessToken : Option String
  refreshToken : Option String
  me : Option (MeData × Ts)
  feeders : List (String × Feeder)
  collections : List (String × CollectionRecord)
  lastFeedDate : Option Ts
  clock : Ts
  env : List ExecResult
  trace : List ReqEntry
  diag : List DiagEntry
deriving DecidableEq

/-- The result of an embedded operation: a value or a raised error,
plus the state at that point (mutations before a raise are kept). -/
abbrev Res (α : Type) := Except BBError α × St

/-- Embeds `BirdBuddy.__init__`: all session, cache and watermark state unset. -/
def initClient (email password : String) (env : List ExecResult) : St :=
  { email := email
  , password := password
  , accessToken := none
  , refreshToken := none
  , me := none
  , feeders := []
  , collections := []
  , lastFeedDate := none
  , clock := 0
  , env := env
  , trace := []
  , diag := [] }

/-- Embeds `_needs_login`. -/
def needsLogin (st : St) : Bool := st.refreshToken = none

/-- Embeds `_needs_refresh`. -/
def needsRefresh (st : St) : Bool := st.accessToken = none

/-- Embeds `_headers`. -/
def headersOf (st : St) : Headers := Headers.bearer st.accessToken

/-- Embeds `_clear`. -/
def clearSession (st : St) : St :=
  { st with accessToken := none, refreshToken := none, me := none }

/-- Embeds `query in [REFRESH_AUTH_TOKEN, SIGN_IN]`. -/
def shouldRedactQ (q : Query) : Bool :=
  match q with
  | Query.signIn => true
  | Query.refreshTokenQ => true
  | _ => false

/-- One invocation of the external executor: consumes the next scripted
response (an empty script behaves as an empty body) and records the
issued request in the trace. -/
def rawRequest (q : Query) (v : Variables) (h : Headers) (st : St) :
    ExecResult × St :=
  match st.env with
  | [] => (ExecResult.noBody, { st with trace := st.trace ++ [⟨q, v, h⟩] })
  | r :: rest =>
      (r, { st with env := rest, trace := st.trace ++ [⟨q, v, h⟩] })

/-- The response checks of `_make_request` in source order: empty body,
then the `errors` list, then the `data` payload. -/
def classify (r : ExecResult) : Except BBError GqlData :=
  match r with
  | ExecResult.noBody => Except.error BBError.noResponse
  | ExecResult.withErrors true => Except.error BBError.authTokenExpired
  | ExecResult.withErrors false => Except.error BBError.graphqlOther
  | ExecResult.badData => Except.error BBError.unexpectedResponse
  | ExecResult.withData d => Except.ok d

/-- Embeds `_make_request` with `auth=False` (no auth header, no reauth): on a
token-expiry error the access token is cleared and the error raised. -/
def makeRequestNoAuth (q : Query) (v : Variables) (st : St) : Res GqlData :=
  let sr := shouldRedactQ q
  let stL := { st with diag := st.diag ++ [DiagEntry.vars (pyRedact v sr)] }
  let pr := rawRequest q v Headers.noAuth stL
  match classify pr.1 with
  | Except.error BBError.authTokenExpired =>
      (Except.error BBError.authTokenExpired, { pr.2 with accessToken := none })
  | Except.error e => (Except.error e, pr.2)
  | Except.ok d =>
      (Except.ok d, { pr.2 with diag := pr.2.diag ++ [DiagEntry.resp (pyRedact d sr)] })

/-- One step of `_save_me`'s feeder loop: refresh the cached `Feeder`
in place when the id is cached, insert a new one otherwise. -/
def feederStep (m : List (String × Feeder)) (f : FeederRecord) :
    List (String × Feeder) :=
  match dictGet m f.id with
  | some fd => dictSet m f.id (fd.update f)
  | none => dictSet m f.id (Feeder.ofRecord f)

/-- Embeds `_save_me`: a falsy record is a no-op returning `False`; otherwise
the record is stamped with the current time, stored as the profile, its
feeders merged into the cache, and `True` returned. -/
def saveMe (me : MeData) (st : St) : Bool × St :=
  match me with
  | MeData.empty => (false, st)
  | MeData.record fs =>
      (true,
        { st with
            me := some (MeData.record fs, st.clock)
          , clock := st.clock + 1
          , feeders := fs.foldl feederStep st.feeders })

/-- Embeds `_login`: asserts credentials, sends the sign-in mutation without
auth, turns remote-reported errors into an authentication failure,
stores the token pair and merges the returned profile. -/
def login (st : St) : Res Bool :=
  if st.email = "" ∨ st.password = "" then (Except.error BBError.assertionFailed, st)
  else
    match makeRequestNoAuth Query.signIn (Variables.signInVars st.email st.password) st with
    | (Except.error e, st') =>
        if isGraphqlErr e then (Except.error BBError.authenticationFailed, st')
        else (Except.error e, st')
    | (Except.ok (GqlData.authSignIn atk rtk meD), st') =>
        let st'' := { st' with accessToken := atk, refreshToken := rtk }
        let pr := saveMe meD st''
        (Except.ok pr.1, pr.2)
    | (Except.ok _, st') => (Except.error BBError.keyErr, st')

/-- Embeds `_refresh_access_token`: asserts a refresh token, sends the refresh
mutation without auth; on a remote-reported error clears the refresh
token and raises an authentication failure; on success installs the
returned token pair (via `.get`, so either may be absent) and returns
whether an access token is now present. -/
def refreshAccessToken (st : St) : Res Bool :=
  match st.refreshToken with
  | none => (Except.error BBError.assertionFailed, st)
  | some rt =>
    match makeRequestNoAuth Query.refreshTokenQ (Variables.refreshVars rt) st with
    | (Except.error e, st') =>
        if isGraphqlErr e then
          (Except.error BBError.authenticationFailed, { st' with refreshToken := none })
        else (Except.error e, st')
    | (Except.ok (GqlData.authRefresh atk rtk), st') =>
        (Except.ok atk.isSome, { st' with accessToken := atk, refreshToken := rtk })
    | (Except.ok _, st') => (Except.error BBError.keyErr, st')

/-- Embeds `_check_auth`: log in when no refresh token is present (returning
login's result), refresh when the access token is absent, then return
`not _needs_login()`. -/
def checkAuth (st : St) : Res Bool :=
  if st.refreshToken = none then login st
  else if st.accessToken = none then
    match refreshAccessToken st with
    | (Except.error e, st') => (Except.error e, st')
    | (Except.ok _, st') => (Except.ok st'.refreshToken.isSome, st')
  else (Except.ok st.refreshToken.isSome, st)

/-- One authenticated attempt of `_make_request` (`auth=True`): ensure
auth (result ignored), build the bearer header, log the (possibly
redacted) variables, execute, classify; a token-expiry error clears the
access token; on success log the (possibly redacted) response. -/
def authAttempt (q : Query) (v : Variables) (st : St) : Res GqlData :=
  match checkAuth st with
  | (Except.error e, st') => (Except.error e, st')
  | (Except.ok _, st1) =>
    let sr := shouldRedactQ q
    let st2 := { st1 with diag := st1.diag ++ [DiagEntry.vars (pyRedact v sr)] }
    let pr := rawRequest q v (headersOf st1) st2
    match classify pr.1 with
    | Except.error BBError.authTokenExpired =>
        (Except.error BBError.authTokenExpired, { pr.2 with accessToken := none })
    | Except.error e => (Except.error e, pr.2)
    | Except.ok d =>
        (Except.ok d, { pr.2 with diag := pr.2.diag ++ [DiagEntry.resp (pyRedact d sr)] })

/-- Embeds `_make_request` with the default `auth=True, reauth=True`: on a
token-expiry error of the first attempt, re-enter once with
`reauth=False` (a second attempt whose expiry error propagates). -/
def makeRequest (q : Query) (v : Variables) (st : St) : Res GqlData :=
  match authAttempt q v st with
  | (Except.error BBError.authTokenExpired, st') => authAttempt q v st'
  | r => r

/-- Embeds `refresh`: fetch `me` and merge it. -/
def refreshOp (st : St) : Res Bool :=
  match makeRequest Query.meQ Variables.noVars st with
  | (Except.error e, st') => (Except.error e, st')
  | (Except.ok (GqlData.meData meD), st') =>
      let pr := saveMe meD st'
      (Except.ok pr.1, pr.2)
  | (Except.ok _, st') => (Except.error BBError.keyErr, st')

/-- Embeds `feed`: request one page; `after` is forwarded only when truthy,
`last`/`before` are accepted but never forwarded (backend rejects
backward pagination). -/
def feedOp (first : Nat) (after : Option String)
    (_last : Option Nat) (_before : Option String) (st : St) :
    Res (List FeedNodeE) :=
  let afterArg : Option String :=
    match after with
    | some a => if a = "" then none else some a
    | none => none
  match makeRequest Query.feedQ (Variables.feedVars first afterArg) st with
  | (Except.error e, st') => (Except.error e, st')
  | (Except.ok (GqlData.meFeed nodes), st') => (Except.ok nodes, st')
  | (Except.ok _, st') => (Except.error BBError.keyErr, st')

/-- The `since` argument of `refresh_feed`: absent (the `_NO_VALUE`
sentinel) or an explicit optional timestamp. -/
inductive SinceArg where
  | noValue
  | dt (t : Option Ts)
deriving DecidableEq

/-- Modelled from the spec: `Feed.filter(newer_than=t)`
(`birdbuddy/feed.py` is not in `src/`): the nodes strictly newer than
`t`, or all nodes when no bound is given. -/
def feedFilterNewer (nodes : List FeedNodeE) (t : Option Ts) : List FeedNodeE :=
  match t with
  | none => nodes
  | some ts => nodes.filter (fun n => decide (ts < n.createdAt))

/-- Modelled from the spec: `Feed.newest_edge.node` — pages are
delivered newest-first, so the newest node is the first one. -/
def newestNode (nodes : List FeedNodeE) : Option FeedNodeE := nodes.head?

/-- Embeds `refresh_feed`: default `since` to the stored watermark, fetch one
page, move the watermark to the page's newest timestamp whenever it
differs, and return the nodes strictly newer than `since`. -/
def refreshFeed (since : SinceArg) (st : St) : Res (List FeedNodeE) :=
  let sinceVal : Option Ts :=
    match since with
    | SinceArg.noValue => st.lastFeedDate
    | SinceArg.dt t => t
  match feedOp 20 none none none st with
  | (Except.error e, st') => (Except.error e, st')
  | (Except.ok nodes, st') =>
    match newestNode nodes with
    | none => (Except.error BBError.attributeErr, st')
    | some newest =>
      let st'' :=
        if some newest.createdAt ≠ st'.lastFeedDate then
          { st' with lastFeedDate := some newest.createdAt }
        else st'
      (Except.ok (feedFilterNewer nodes sinceVal), st'')

/-- Embeds `feed_nodes`: one page filtered by node type. -/
def feedNodesOp (nodeType : String) (st : St) : Res (List FeedNodeE) :=
  match feedOp 20 none none none st with
  | (Except.error e, st') => (Except.error e, st')
  | (Except.ok nodes, st') =>
      (Except.ok (nodes.filter (fun n => decide (n.nodeType = nodeType))), st')

/-- Python `str.capitalize`: first character upper-cased, rest
lower-cased. -/
def pyCapitalize (s : String) : String :=
  match s.data with
  | [] => ""
  | c :: cs => String.mk (c.toUpper :: cs.map Char.toLower)

/-- Embeds `refresh_collections`: fetch the collections, keep those whose
`__typename` is `Collection<Capitalized of_type>`, key them by id,
merge them into the cache and return the full cache. -/
def refreshCollections (ofType : String) (st : St) :
    Res (List (String × CollectionRecord)) :=
  match makeRequest Query.collectionsQ Variables.noVars st with
  | (Except.error e, st') => (Except.error e, st')
  | (Except.ok (GqlData.meCollections ds), st') =>
      let fresh := (ds.filter (fun d =>
          decide (d.typename = "Collection" ++ pyCapitalize ofType))).foldl
        (fun m d => dictSet m d.id d) []
      let merged := fresh.foldl (fun m kv => dictSet m kv.1 kv.2) st'.collections
      (Except.ok merged, { st' with collections := merged })
  | (Except.ok _, st') => (Except.error BBError.keyErr, st')

/-- The shared tail of `sighting_from_postcard` once a postcard id has
been resolved: send the conversion mutation and wrap the result with a
back-reference to the original argument. -/
def sightingRequest (pid : String) (p : PostcardArg) (st : St) :
    Res PostcardSighting :=
  match makeRequest Query.postcardToSighting (Variables.postcardVars pid) st with
  | (Except.error e, st') => (Except.error e, st')
  | (Except.ok (GqlData.sightingCreate r), st') =>
      (Except.ok ⟨r, some p⟩, st')
  | (Except.ok _, st') => (Except.error BBError.keyErr, st')

/-- Embeds `sighting_from_postcard`: a string argument is the id; a feed node
must carry the postcard type tag (assertion) and contributes its id;
any other value leaves `postcard_id` unassigned, so building the
variables raises an unbound-name error before any request. -/
def sightingFromPostcard (p : PostcardArg) (st : St) : Res PostcardSighting :=
  match p with
  | PostcardArg.str s => sightingRequest s p st
  | PostcardArg.node n =>
      if n.nodeType = newPostcardType then sightingRequest n.nodeId p st
      else (Except.error BBError.assertionFailed, st)
  | PostcardArg.otherVal => (Except.error BBError.nameErr, st)

/-- Embeds `finish_postcard`: a non-`PostcardSighting` argument returns
`False`; a strategy other than `Recognized` returns `False`; otherwise
the finish mutation is built from the unlocked sightings' cover media
(in report order), an empty `notSelectedMediaIds` and the report token,
and the remote `success` flag is returned. -/
def finishPostcard (feedItemId : String) (arg : FinishArg) (st : St) : Res Bool :=
  match arg with
  | FinishArg.notASighting => (Except.ok false, st)
  | FinishArg.valid ps =>
    if ps.report.finishingStrategy ≠ Strategy.recognized then (Except.ok false, st)
    else
      let v : Variables := Variables.finishVars feedItemId
        ((ps.report.sightings.filter (fun s => s.isUnlocked)).map
          (fun s => s.coverMedia))
        [] ps.report.token
      match makeRequest Query.finishSighting v st with
      | (Except.error e, st') => (Except.error e, st')
      | (Except.ok (GqlData.finishResult b), st') => (Except.ok b, st')
      | (Except.ok _, st') => (Except.error BBError.keyErr, st')

/-- Embeds `dump_schema`: an unauthenticated request. -/
def dumpSchemaOp (st : St) : Res GqlData :=
  makeRequestNoAuth Query.dumpSchema Variables.noVars st

/-- The session invariant: an access token is only ever present
together with a refresh token. -/
def sessionInv (st : St) : Prop :=
  st.accessToken.isSome = true → st.refreshToken.isSome = true

/-- Well-formedness of one scripted response: token-bearing payloads
carry a refresh token whenever they carry an access token. -/
def tokenWF (r : ExecResult) : Prop :=
  match r with
  | ExecResult.withData (GqlData.authSignIn atk rtk _) =>
      atk.isSome = true → rtk.isSome = true
  | ExecResult.withData (GqlData.authRefresh atk rtk) =>
      atk.isSome = true → rtk.isSome = true
  | _ => True

/-- Well-formedness of a whole scripted environment. -/
def envWF (l : List ExecResult) : Prop := ∀ r ∈ l, tokenWF r

/-- One public client operation (the session-mutating surface of the
class, plus the internal `_clear`). -/
inductive ClientStep : St → St → Prop where
  | refresh (st : St) : ClientStep st (refreshOp st).2
  | feed (st : St) (n1 : Nat) (a1 : Option String) (l1 : Option Nat)
      (b1 : Option String) : ClientStep st (feedOp n1 a1 l1 b1 st).2
  | refreshFeedS (st : St) (since : SinceArg) :
      ClientStep st (refreshFeed since st).2
  | feedNodes (st : St) (ty : String) : ClientStep st (feedNodesOp ty st).2
  | refreshCollectionsS (st : St) (ty : String) :
      ClientStep st (refreshCollections ty st).2
  | sighting (st : St) (p : PostcardArg) :
      ClientStep st (sightingFromPostcard p st).2
  | finish (st : St) (fid : String) (arg : FinishArg) :
      ClientStep st (finishPostcard fid arg st).2
  | request (st : St) (q : Query) (v : Variables) :
      ClientStep st (makeRequest q v st).2
  | requestNoAuth (st : St) (q : Query) (v : Variables) :
      ClientStep st (makeRequestNoAuth q v st).2
  | clear (st : St) : ClientStep st (clearSession st)

/-- States reachable from a freshly constructed client by any sequence
of operations, under an arbitrary scripted environment. -/
inductive ClientReachable : St → Prop where
  | init (e p : String) (env : List ExecResult) :
      ClientReachable (initClient e p env)
  | step {st st' : St} : ClientReachable st → ClientStep st st' →
      ClientReachable st'

/-- States reachable under a well-formed scripted environment. -/
inductive ClientReachableWF : St → Prop where
  | init (e p : String) (env : List ExecResult) (h : envWF env) :
      ClientReachableWF (initClient e p env)
  | step {st st' : St} : ClientReachableWF st → ClientStep st st' →
      ClientReachableWF st'

/-- Counterexample environment for C3: the sign-in response carries an
access token but a null refresh token. -/
def c3Env : List ExecResult :=
  [ExecResult.withData (GqlData.authSignIn (some "A") none MeData.empty),
   ExecResult.withData (GqlData.meData MeData.empty)]

/-- Counterexample state for C3. -/
def c3Bad : St := (refreshOp (initClient "e" "p" c3Env)).2

/-- The number of requests with query `q` in a trace. -/
def attemptCount (q : Query) (tr : List ReqEntry) : Nat :=
  (tr.filter (fun e => decide (e.query = q))).length

/-- A trace fragment consisting only of credential requests (the ones
`_check_auth` can issue). -/
def authQueriesOnly (l : List ReqEntry) : Prop :=
  ∀ e ∈ l, e.query = Query.signIn ∨ e.query = Query.refreshTokenQ

/-- Witness state for C1: an authenticated client scripted to answer
expiry, then a successful token refresh, then expiry again. -/
def c1WSt : St :=
  { initClient "e" "p"
      [ExecResult.withErrors true,
       ExecResult.withData (GqlData.authRefresh (some "A2") (some "R2")),
       ExecResult.withErrors true] with
      accessToken := some "A", refreshToken := some "R" }

/-- Witness state for C9. -/
def c9WSt : St :=
  { initClient "e" "p" [ExecResult.withData GqlData.otherData] with
      accessToken := some "A", refreshToken := some "R" }

/-- Witness state for C4: an authenticated client whose next scripted
response is a successful finish result. -/
def c4WSt : St :=
  { initClient "e" "p" [ExecResult.withData (GqlData.finishResult true)] with
      accessToken := some "A", refreshToken := some "R" }

/-- Witness report for C4: strategy `Recognized`, two sightings, only
the first unlocked. -/
def c4WPs : PostcardSighting :=
  ⟨⟨"tok", Strategy.recognized, [⟨"m1", true⟩, ⟨"m2", false⟩]⟩, none⟩

/-- Watermark order: an unset watermark is below everything; a set one
must not move to an earlier timestamp. -/
def wmLe (a b : Option Ts) : Prop :=
  ∀ t, a = some t → ∃ u, b = some u ∧ t ≤ u

/-- Counterexample state for C2: watermark 5, next fetched page's
newest node carries the earlier timestamp 3. -/
def c2CSt : St :=
  { initClient "e" "p"
      [ExecResult.withData (GqlData.meFeed [⟨"n1", "Postcard", 3⟩])] with
      accessToken := some "A", refreshToken := some "R", lastFeedDate := some 5 }

/-- Witness state for the amended C2. -/
def c2WSt : St :=
  { initClient "e" "p"
      [ExecResult.withData (GqlData.meFeed [⟨"n1", "Postcard", 9⟩])] with
      accessToken := some "A", refreshToken := some "R", lastFeedDate := some 4 }

/-- Counterexample state for C6: a fresh client whose sign-in response
carries both tokens but an empty profile record. -/
def c6CSt : St :=
  initClient "e" "p"
    [ExecResult.withData (GqlData.authSignIn (some "AT") (some "RT") MeData.empty)]

/-- Witness state for the amended C6: an authenticated session. -/
def c6WSt : St :=
  { initClient "e" "p" [] with accessToken := some "A", refreshToken := some "R" }

/-- Counterexample state for C7: the cache already holds a
`CollectionFish` entry, the next response holds one bird collection. -/
def c7CSt : St :=
  { initClient "e" "p"
      [ExecResult.withData (GqlData.meCollections [⟨"CollectionBird", "c2"⟩])] with
      accessToken := some "A", refreshToken := some "R",
      collections := [("c1", ⟨"CollectionFish", "c1"⟩)] }

theorem attemptCount_append (q : Query) (t1 t2 : List ReqEntry) :
    attemptCount q (t1 ++ t2) = attemptCount q t1 + attemptCount q t2 := by
  simp [attemptCount, List.filter_append]

theorem attemptCount_authOnly (q : Query) (l : List ReqEntry)
    (hq1 : q ≠ Query.signIn) (hq2 : q ≠ Query.refreshTokenQ)
    (h : authQueriesOnly l) : attemptCount q l = 0 := by
  simp only [attemptCount, List.length_eq_zero, List.filter_eq_nil_iff]
  intro e he
  rcases h e he with h' | h' <;> simp [h'] <;> intro hc <;>
    first
      | exact hq1 hc.symm
      | exact hq2 hc.symm

theorem rawRequest_trace (q : Query) (v : Variables) (h : Headers) (st : St) :
    (rawRequest q v h st).2.trace = st.trace ++ [⟨q, v, h⟩] := by
  cases henv : st.env <;> simp [rawRequest, henv]

theorem makeRequestNoAuth_trace (q : Query) (v : Variables) (st : St) :
    (makeRequestNoAuth q v st).2.trace = st.trace ++ [⟨q, v, Headers.noAuth⟩] := by
  cases henv : st.env with
  | nil => simp [makeRequestNoAuth, rawRequest, classify, henv]
  | cons r rest =>
    cases r with
    | noBody => simp [makeRequestNoAuth, rawRequest, classify, henv]
    | withErrors te => cases te <;> simp [makeRequestNoAuth, rawRequest, classify, henv]
    | badData => simp [makeRequestNoAuth, rawRequest, classify, henv]
    | withData d => simp [makeRequestNoAuth, rawRequest, classify, henv]

theorem saveMe_trace (meD : MeData) (st : St) : (saveMe meD st).2.trace = st.trace := by
  cases meD <;> rfl

theorem login_trace (st : St) :
    ∃ l, (login st).2.trace = st.trace ++ l ∧ authQueriesOnly l := by
  unfold login
  split
  · exact ⟨[], by simp, by intro e he; cases he⟩
  · refine ⟨[⟨Query.signIn, Variables.signInVars st.email st.password, Headers.noAuth⟩],
      ?_, by intro e he; simp at he; simp [he]⟩
    have htr := makeRequestNoAuth_trace Query.signIn
      (Variables.signInVars st.email st.password) st
    split
    · rename_i e st' heq
      rw [heq] at htr
      simp at htr
      by_cases hg : isGraphqlErr e <;> simp [hg, htr]
    · rename_i atk rtk meD st' heq
      rw [heq] at htr
      simp at htr
      simp [saveMe_trace, htr]
    · rename_i st' heq h2
      rw [h2] at htr
      simpa using htr

theorem refreshAccessToken_trace (st : St) :
    ∃ l, (refreshAccessToken st).2.trace = st.trace ++ l ∧ authQueriesOnly l := by
  unfold refreshAccessToken
  split
  · exact ⟨[], by simp, by intro e he; cases he⟩
  · rename_i rt hrt
    refine ⟨[⟨Query.refreshTokenQ, Variables.refreshVars rt, Headers.noAuth⟩],
      ?_, by intro e he; simp at he; simp [he]⟩
    have htr := makeRequestNoAuth_trace Query.refreshTokenQ (Variables.refreshVars rt) st
    split
    · rename_i e st' heq
      rw [heq] at htr
      simp at htr
      by_cases hg : isGraphqlErr e <;> simp [hg, htr]
    · rename_i atk rtk st' heq
      rw [heq] at htr
      simpa using htr
    · rename_i st' heq h2
      rw [h2] at htr
      simpa using htr

theorem checkAuth_trace (st : St) :
    ∃ l, (checkAuth st).2.trace = st.trace ++ l ∧ authQueriesOnly l := by
  unfold checkAuth
  split
  · exact login_trace st
  · split
    · obtain ⟨l, hl, hauth⟩ := refreshAccessToken_trace st
      refine ⟨l, ?_, hauth⟩
      split
      · rename_i e st' heq
        rw [heq] at hl
        exact hl
      · rename_i b st' heq
        rw [heq] at hl
        exact hl
    · exact ⟨[], by simp, by intro e he; cases he⟩

theorem authAttempt_trace (q : Query) (v : Variables) (st : St) :
    ∃ l, (authAttempt q v st).2.trace = st.trace ++ l ∧
      (authQueriesOnly l ∨
        ∃ l' h, l = l' ++ [⟨q, v, h⟩] ∧ authQueriesOnly l') := by
  unfold authAttempt
  obtain ⟨l0, hl0, hauth0⟩ := checkAuth_trace st
  split
  · rename_i e st' heq
    rw [heq] at hl0
    exact ⟨l0, hl0, Or.inl hauth0⟩
  · rename_i b st1 heq
    rw [heq] at hl0
    simp at hl0
    refine ⟨l0 ++ [⟨q, v, headersOf st1⟩], ?_, Or.inr ⟨l0, headersOf st1, rfl, hauth0⟩⟩
    dsimp only
    split <;> simp [rawRequest_trace, hl0]

theorem authAttempt_count (q : Query) (v : Variables) (st : St)
    (hq1 : q ≠ Query.signIn) (hq2 : q ≠ Query.refreshTokenQ) :
    attemptCount q (authAttempt q v st).2.trace ≤ attemptCount q st.trace + 1 := by
  obtain ⟨l, hl, hcase⟩ := authAttempt_trace q v st
  rw [hl, attemptCount_append]
  rcases hcase with hauth | ⟨l', h, hl', hauth⟩
  · rw [attemptCount_authOnly q l hq1 hq2 hauth]
    omega
  · subst hl'
    rw [attemptCount_append, attemptCount_authOnly q l' hq1 hq2 hauth]
    simp [attemptCount]

/-- C1: through the authenticated pipeline, a token-expiry response
clears the access token and triggers exactly one retry (after a
re-authentication request); when the retry's response is again a
token-expiry the error propagates, and in every run the query is
attempted at most twice. -/
theorem c1_expiry_retry :
    (∀ (q : Query) (v : Variables) (st : St) (a r a2 r2 : String)
      (rest : List ExecResult),
      st.accessToken = some a → st.refreshToken = some r →
      st.env = ExecResult.withErrors true ::
        ExecResult.withData (GqlData.authRefresh (some a2) (some r2)) ::
        ExecResult.withErrors true :: rest →
      (makeRequest q v st).1 = Except.error BBError.authTokenExpired ∧
      (makeRequest q v st).2.accessToken = none ∧
      (makeRequest q v st).2.trace = st.trace ++
        [⟨q, v, Headers.bearer (some a)⟩,
         ⟨Query.refreshTokenQ, Variables.refreshVars r, Headers.noAuth⟩,
         ⟨q, v, Headers.bearer (some a2)⟩]) ∧
    (∀ (q : Query) (v : Variables) (st : St),
      q ≠ Query.signIn → q ≠ Query.refreshTokenQ →
      attemptCount q (makeRequest q v st).2.trace ≤ attemptCount q st.trace + 2) := by
  constructor
  · intro q v st a r a2 r2 rest ha hr henv
    obtain ⟨e, p, atk, rtk, meF, fds, cols, lfd, ck, env, tr, dg⟩ := st
    simp only at ha hr henv
    subst ha hr henv
    simp [makeRequest, authAttempt, checkAuth, refreshAccessToken,
      makeRequestNoAuth, rawRequest, classify, headersOf]
  · intro q v st hq1 hq2
    unfold makeRequest
    split
    · rename_i st' heq
      have h1 : attemptCount q st'.trace ≤ attemptCount q st.trace + 1 := by
        have := authAttempt_count q v st hq1 hq2
        rw [heq] at this
        exact this
      have h2 := authAttempt_count q v st' hq1 hq2
      omega
    · rename_i hne
      exact Nat.le_trans (authAttempt_count q v st hq1 hq2) (by omega)

/-- Witness for C1 at concrete inputs. -/
theorem c1_expiry_retry_witness :
    (makeRequest Query.meQ Variables.noVars c1WSt).1 =
      Except.error BBError.authTokenExpired ∧
    attemptCount Query.meQ (makeRequest Query.meQ Variables.noVars c1WSt).2.trace ≤
      attemptCount Query.meQ c1WSt.trace + 2 :=
  ⟨(c1_expiry_retry.1 Query.meQ Variables.noVars c1WSt "A" "R" "A2" "R2" []
      rfl rfl rfl).1,
   c1_expiry_retry.2 Query.meQ Variables.noVars c1WSt
      (by decide) (by decide)⟩

theorem pyRedact_shouldRedact {α : Type} (q : Query) (x : α) :
    pyRedact x (shouldRedactQ q) =
      if q = Query.signIn ∨ q = Query.refreshTokenQ then RedactedVal.marker
      else RedactedVal.raw x := by
  cases q <;> simp [pyRedact, shouldRedactQ]

/-- C9: the variables value and the response value handed to
diagnostic output are the redaction marker exactly when the query is
one of the credential-bearing ones (sign-in, token refresh), and the
raw values for every other query — both on the authenticated pipeline
and on unauthenticated requests. -/
theorem c9_redaction :
    (∀ (q : Query) (v : Variables) (st : St) (a r : String) (d : GqlData)
      (rest : List ExecResult),
      st.accessToken = some a → st.refreshToken = some r →
      st.env = ExecResult.withData d :: rest →
      (makeRequest q v st).2.diag = st.diag ++
        [DiagEntry.vars (if q = Query.signIn ∨ q = Query.refreshTokenQ
            then RedactedVal.marker else RedactedVal.raw v),
         DiagEntry.resp (if q = Query.signIn ∨ q = Query.refreshTokenQ
            then RedactedVal.marker else RedactedVal.raw d)]) ∧
    (∀ (q : Query) (v : Variables) (st : St) (d : GqlData)
      (rest : List ExecResult),
      st.env = ExecResult.withData d :: rest →
      (makeRequestNoAuth q v st).2.diag = st.diag ++
        [DiagEntry.vars (if q = Query.signIn ∨ q = Query.refreshTokenQ
            then RedactedVal.marker else RedactedVal.raw v),
         DiagEntry.resp (if q = Query.signIn ∨ q = Query.refreshTokenQ
            then RedactedVal.marker else RedactedVal.raw d)]) := by
  constructor
  · intro q v st a r d rest ha hr henv
    obtain ⟨e, p, atk, rtk, meF, fds, cols, lfd, ck, env, tr, dg⟩ := st
    simp only at ha hr henv
    subst ha hr henv
    simp [makeRequest, authAttempt, checkAuth, rawRequest, classify,
      headersOf, pyRedact_shouldRedact]
  · intro q v st d rest henv
    obtain ⟨e, p, atk, rtk, meF, fds, cols, lfd, ck, env, tr, dg⟩ := st
    simp only at henv
    subst henv
    simp [makeRequestNoAuth, rawRequest, classify, pyRedact_shouldRedact]

/-- Witness for C9: a non-credential query logs raw values, a
credential query logs the marker. -/
theorem c9_redaction_witness :
    (makeRequest Query.meQ Variables.noVars c9WSt).2.diag = c9WSt.diag ++
      [DiagEntry.vars (RedactedVal.raw Variables.noVars),
       DiagEntry.resp (RedactedVal.raw GqlData.otherData)] ∧
    (makeRequest Query.signIn Variables.noVars c9WSt).2.diag = c9WSt.diag ++
      [DiagEntry.vars RedactedVal.marker, DiagEntry.resp RedactedVal.marker] := by
  constructor
  · have h := c9_redaction.1 Query.meQ Variables.noVars c9WSt "A" "R"
      GqlData.otherData [] rfl rfl rfl
    simpa using h
  · have h := c9_redaction.1 Query.signIn Variables.noVars c9WSt "A" "R"
      GqlData.otherData [] rfl rfl rfl
    simpa using h

/-- C4: for a report whose finishing strategy is `Recognized`,
`finish_postcard` submits one finish mutation whose `defaultCoverMedia`
is exactly the cover media of the unlocked sightings in report order,
whose `notSelectedMediaIds` is empty, whose `reportToken` is the
report's token and whose `feedItemId` is the given id, and returns the
remote response's success flag. -/
theorem c4_finish_recognized :
    ∀ (fid : String) (ps : PostcardSighting) (st : St) (a r : String)
      (b : Bool) (rest : List ExecResult),
      ps.report.finishingStrategy = Strategy.recognized →
      st.accessToken = some a → st.refreshToken = some r →
      st.env = ExecResult.withData (GqlData.finishResult b) :: rest →
      finishPostcard fid (FinishArg.valid ps) st =
        (Except.ok b,
          { st with
              env := rest
            , trace := st.trace ++
                [⟨Query.finishSighting,
                  Variables.finishVars fid
                    ((ps.report.sightings.filter (fun s => s.isUnlocked)).map
                      (fun s => s.coverMedia))
                    [] ps.report.token,
                  Headers.bearer (some a)⟩]
            , diag := st.diag ++
                [DiagEntry.vars (RedactedVal.raw
                    (Variables.finishVars fid
                      ((ps.report.sightings.filter (fun s => s.isUnlocked)).map
                        (fun s => s.coverMedia))
                      [] ps.report.token)),
                  DiagEntry.resp (RedactedVal.raw (GqlData.finishResult b))] }) := by
  intro fid ps st a r b rest hstrat ha hr henv
  obtain ⟨e, p, atk, rtk, meF, fds, cols, lfd, ck, env, tr, dg⟩ := st
  simp only at ha hr henv
  subst ha hr henv
  simp [finishPostcard, makeRequest, authAttempt, checkAuth, rawRequest, classify,
    headersOf, shouldRedactQ, pyRedact, hstrat]

/-- Witness for C4 at concrete inputs. -/
theorem c4_finish_recognized_witness :
    (finishPostcard "item-42" (FinishArg.valid c4WPs) c4WSt).1 = Except.ok true := by
  rw [c4_finish_recognized "item-42" c4WPs c4WSt "A" "R" true [] rfl rfl rfl rfl]

/-- C5: `finish_postcard` on a non-`PostcardSighting` argument, or on a
report whose finishing strategy is not `Recognized`, returns `False`
with the client state unchanged (no request issued, nothing mutated). -/
theorem c5_finish_guard :
    ∀ (fid : String) (arg : FinishArg) (st : St),
      (arg = FinishArg.notASighting ∨
        ∀ ps, arg = FinishArg.valid ps →
          ps.report.finishingStrategy ≠ Strategy.recognized) →
      finishPostcard fid arg st = (Except.ok false, st) := by
  intro fid arg st h
  cases arg with
  | notASighting => rfl
  | valid ps =>
      rcases h with h | h
      · exact absurd h (by simp)
      · have hs := h ps rfl
        simp [finishPostcard, hs]

/-- Witness for C5 at concrete inputs. -/
theorem c5_finish_guard_witness :
    finishPostcard "item-1"
        (FinishArg.valid ⟨⟨"tok", Strategy.manualSelection, []⟩, none⟩)
        (initClient "e" "p" []) =
      (Except.ok false, initClient "e" "p" []) :=
  c5_finish_guard "item-1" _ _ (Or.inr (by intro ps hps; cases hps; simp))

theorem dictKeys_dictSet_mem {α : Type} (m : List (String × α)) (k : String) (v : α)
    (h : k ∈ dictKeys m) : dictKeys (dictSet m k v) = dictKeys m := by
  induction m with
  | nil => simp [dictKeys] at h
  | cons kv rest ih =>
    obtain ⟨k', v'⟩ := kv
    by_cases hk : k' = k
    · simp [dictSet, dictKeys, hk]
    · have h' : k ∈ dictKeys rest := by
        simp [dictKeys] at h
        rcases h with h | h
        · exact absurd h.symm hk
        · simpa [dictKeys] using h
      simp [dictSet, dictKeys, hk]
      simpa [dictKeys] using ih h'

theorem dictKeys_dictSet_notmem {α : Type} (m : List (String × α)) (k : String) (v : α)
    (h : k ∉ dictKeys m) : dictKeys (dictSet m k v) = dictKeys m ++ [k] := by
  induction m with
  | nil => simp [dictSet, dictKeys]
  | cons kv rest ih =>
    obtain ⟨k', v'⟩ := kv
    have hk : k' ≠ k := by
      intro hc
      exact h (by simp [dictKeys, hc])
    have h' : k ∉ dictKeys rest := by
      intro hc
      exact h (by simp [dictKeys]; exact Or.inr (by simpa [dictKeys] using hc))
    simp [dictSet, dictKeys, hk]
    simpa [dictKeys] using ih h'

theorem dictSet_length_mem {α : Type} (m : List (String × α)) (k : String) (v : α)
    (h : k ∈ dictKeys m) : (dictSet m k v).length = m.length := by
  induction m with
  | nil => simp [dictKeys] at h
  | cons kv rest ih =>
    obtain ⟨k', v'⟩ := kv
    by_cases hk : k' = k
    · simp [dictSet, hk]
    · have h' : k ∈ dictKeys rest := by
        simp [dictKeys] at h
        rcases h with h | h
        · exact absurd h.symm hk
        · simpa [dictKeys] using h
      simp [dictSet, hk, ih h']

theorem dictKeys_cons {α : Type} (k' : String) (v' : α) (rest : List (String × α)) :
    dictKeys ((k', v') :: rest) = k' :: dictKeys rest := rfl

theorem dictGet_none_iff {α : Type} (m : List (String × α)) (k : String) :
    dictGet m k = none ↔ k ∉ dictKeys m := by
  induction m with
  | nil => simp [dictGet, dictKeys]
  | cons kv rest ih =>
    obtain ⟨k', v'⟩ := kv
    by_cases hk : k' = k
    · subst hk
      simp [dictGet, dictKeys_cons]
    · have hk2 : ¬ k = k' := fun hc => hk hc.symm
      simp [dictGet, dictKeys_cons, hk, hk2, ih]

theorem feederStep_keys_mem (m : List (String × Feeder)) (f : FeederRecord)
    (h : f.id ∈ dictKeys m) : dictKeys (feederStep m f) = dictKeys m := by
  unfold feederStep
  cases hg : dictGet m f.id with
  | none => exact absurd ((dictGet_none_iff m f.id).mp hg) (by simpa using h)
  | some fd => exact dictKeys_dictSet_mem m f.id (fd.update f) h

theorem feederStep_length_mem (m : List (String × Feeder)) (f : FeederRecord)
    (h : f.id ∈ dictKeys m) : (feederStep m f).length = m.length := by
  unfold feederStep
  cases hg : dictGet m f.id with
  | none => exact absurd ((dictGet_none_iff m f.id).mp hg) (by simpa using h)
  | some fd => exact dictSet_length_mem m f.id (fd.update f) h

theorem feederStep_keys_notmem (m : List (String × Feeder)) (f : FeederRecord)
    (h : f.id ∉ dictKeys m) : dictKeys (feederStep m f) = dictKeys m ++ [f.id] := by
  unfold feederStep
  cases hg : dictGet m f.id with
  | none => exact dictKeys_dictSet_notmem m f.id (Feeder.ofRecord f) h
  | some fd =>
      have := (dictGet_none_iff m f.id).mpr h
      rw [hg] at this
      cases this

theorem feederStep_nodup (m : List (String × Feeder)) (f : FeederRecord)
    (h : (dictKeys m).Nodup) : (dictKeys (feederStep m f)).Nodup := by
  by_cases hm : f.id ∈ dictKeys m
  · rw [feederStep_keys_mem m f hm]
    exact h
  · rw [feederStep_keys_notmem m f hm]
    simp [List.nodup_append, h, hm]

theorem foldl_feederStep_nodup (fs : List FeederRecord) (m : List (String × Feeder))
    (h : (dictKeys m).Nodup) : (dictKeys (fs.foldl feederStep m)).Nodup := by
  induction fs generalizing m with
  | nil => exact h
  | cons f fs ih => exact ih (feederStep m f) (feederStep_nodup m f h)

theorem foldl_feederStep_length (fs : List FeederRecord) (m : List (String × Feeder))
    (h : ∀ f ∈ fs, f.id ∈ dictKeys m) :
    dictKeys (fs.foldl feederStep m) = dictKeys m ∧
      (fs.foldl feederStep m).length = m.length := by
  induction fs generalizing m with
  | nil => exact ⟨rfl, rfl⟩
  | cons f fs ih =>
    have hf : f.id ∈ dictKeys m := h f (by simp)
    have hkeys := feederStep_keys_mem m f hf
    have hrest : ∀ g ∈ fs, g.id ∈ dictKeys (feederStep m f) := by
      intro g hg
      rw [hkeys]
      exact h g (by simp [hg])
    obtain ⟨ihk, ihl⟩ := ih (feederStep m f) hrest
    refine ⟨?_, ?_⟩
    · simpa [hkeys] using ihk
    · simpa [feederStep_length_mem m f hf] using ihl

/-- C8: `_save_me` on an empty/absent record changes nothing and
returns `False`; on a non-empty record it returns `True`, stores the
stamped profile, folds every feeder of the record into the cache
(merging into the existing `Feeder` for a cached id, inserting a new
one otherwise), preserves key uniqueness, and does not grow the cache
when all record ids are already cached. -/
theorem c8_saveMe :
    (∀ st : St, saveMe MeData.empty st = (false, st)) ∧
    (∀ (st : St) (fs : List FeederRecord),
      (saveMe (MeData.record fs) st).1 = true ∧
      (saveMe (MeData.record fs) st).2.me = some (MeData.record fs, st.clock) ∧
      (saveMe (MeData.record fs) st).2.feeders = fs.foldl feederStep st.feeders ∧
      (∀ f fd, fs = [f] → dictGet st.feeders f.id = some fd →
        (saveMe (MeData.record fs) st).2.feeders =
          dictSet st.feeders f.id (fd.update f)) ∧
      ((dictKeys st.feeders).Nodup →
        (dictKeys (saveMe (MeData.record fs) st).2.feeders).Nodup) ∧
      ((∀ f ∈ fs, f.id ∈ dictKeys st.feeders) →
        (saveMe (MeData.record fs) st).2.feeders.length = st.feeders.length)) := by
  constructor
  · intro st
    rfl
  · intro st fs
    refine ⟨rfl, rfl, rfl, ?_, ?_, ?_⟩
    · intro f fd hfs hget
      subst hfs
      simp [saveMe, feederStep, hget]
    · intro h
      exact foldl_feederStep_nodup fs st.feeders h
    · intro h
      exact (foldl_feederStep_length fs st.feeders h).2

/-- Witness for C8 at concrete inputs: one cached feeder updated in
place, cache size and key uniqueness preserved. -/
theorem c8_saveMe_witness :
    (saveMe (MeData.record [⟨"f1", [("name", "x")]⟩])
        { initClient "e" "p" [] with feeders := [("f1", ⟨[("name", "a")]⟩)] }).1 = true ∧
    (saveMe (MeData.record [⟨"f1", [("name", "x")]⟩])
        { initClient "e" "p" [] with
            feeders := [("f1", ⟨[("name", "a")]⟩)] }).2.feeders.length = 1 := by
  have h := c8_saveMe.2
    { initClient "e" "p" [] with feeders := [("f1", ⟨[("name", "a")]⟩)] }
    [⟨"f1", [("name", "x")]⟩]
  exact ⟨h.1, by
    have hl := h.2.2.2.2.2 (by intro f hf; simp at hf; simp [hf, dictKeys])
    simpa using hl⟩

/-- C2 counterexample: `refresh_feed` moves the watermark backwards
when the fetched page's newest timestamp is older than the stored
watermark, because the update fires on mere inequality. -/
theorem c2_watermark_counterexample :
    c2CSt.lastFeedDate = some 5 ∧
    (refreshFeed SinceArg.noValue c2CSt).2.lastFeedDate = some 3 ∧
    ¬ wmLe c2CSt.lastFeedDate (refreshFeed SinceArg.noValue c2CSt).2.lastFeedDate := by
  have h3 : (refreshFeed SinceArg.noValue c2CSt).2.lastFeedDate = some 3 := by rfl
  refine ⟨rfl, h3, ?_⟩
  intro hwm
  obtain ⟨u, hu, hle⟩ := hwm 5 rfl
  rw [h3] at hu
  injection hu with hu
  subst hu
  exact absurd hle (by decide)

/-- C2 amended: the watermark starts unset at construction, and each
`refresh_feed` whose fetched page is non-empty sets it to the page's
newest node timestamp (leaving it unchanged when equal); hence it never
moves to an earlier timestamp provided the fetched page's newest
timestamp is not older than the stored watermark. -/
theorem c2_watermark_amended :
    (∀ (e p : String) (env : List ExecResult),
      (initClient e p env).lastFeedDate = none) ∧
    (∀ (st : St) (a r : String) (n : FeedNodeE) (ns : List FeedNodeE)
      (rest : List ExecResult) (since : SinceArg),
      st.accessToken = some a → st.refreshToken = some r →
      st.env = ExecResult.withData (GqlData.meFeed (n :: ns)) :: rest →
      (refreshFeed since st).2.lastFeedDate = some n.createdAt ∧
      ((st.lastFeedDate = none ∨
          ∃ t, st.lastFeedDate = some t ∧ t ≤ n.createdAt) →
        wmLe st.lastFeedDate (refreshFeed since st).2.lastFeedDate)) := by
  constructor
  · intro e p env
    rfl
  · intro st a r n ns rest since ha hr henv
    obtain ⟨e, p, atk, rtk, meF, fds, cols, lfd, ck, env, tr, dg⟩ := st
    simp only at ha hr henv
    subst ha hr henv
    have hval : (refreshFeed since
        ⟨e, p, some a, some r, meF, fds, cols, lfd, ck,
          ExecResult.withData (GqlData.meFeed (n :: ns)) :: rest, tr, dg⟩).2.lastFeedDate =
        some n.createdAt := by
      by_cases hc : some n.createdAt = lfd
      · simp [refreshFeed, feedOp, makeRequest, authAttempt, checkAuth, rawRequest,
          classify, headersOf, newestNode, hc]
      · simp [refreshFeed, feedOp, makeRequest, authAttempt, checkAuth, rawRequest,
          classify, headersOf, newestNode, hc]
    refine ⟨hval, ?_⟩
    intro hmono t ht
    refine ⟨n.createdAt, hval, ?_⟩
    rcases hmono with hnone | ⟨t0, ht0, hle⟩
    · rw [hnone] at ht
      cases ht
    · rw [ht0] at ht
      injection ht with ht
      subst ht
      exact hle

/-- Witness for the amended C2 at concrete inputs. -/
theorem c2_watermark_amended_witness :
    (refreshFeed SinceArg.noValue c2WSt).2.lastFeedDate = some 9 ∧
    wmLe c2WSt.lastFeedDate (refreshFeed SinceArg.noValue c2WSt).2.lastFeedDate := by
  have h := c2_watermark_amended.2 c2WSt "A" "R" ⟨"n1", "Postcard", 9⟩ [] []
    SinceArg.noValue rfl rfl rfl
  exact ⟨h.1, h.2 (Or.inr ⟨4, rfl, by decide⟩)⟩

/-- C6 counterexample: `_check_auth` can return `False` although the
session now holds both tokens, because in the login branch it returns
`_login`'s result, which reports whether the profile record was
non-empty. -/
theorem c6_checkAuth_counterexample :
    (checkAuth c6CSt).1 = Except.ok false ∧
    (checkAuth c6CSt).2.accessToken = some "AT" ∧
    (checkAuth c6CSt).2.refreshToken = some "RT" :=
  ⟨rfl, rfl, rfl⟩

/-- C6 amended: when no refresh token is present `_check_auth` behaves
exactly as `_login` (whose boolean reports the profile merge, not token
usability); otherwise its boolean result equals whether a refresh token
is present after any refresh performed. -/
theorem c6_checkAuth_amended :
    (∀ st : St, st.refreshToken = none → checkAuth st = login st) ∧
    (∀ (st : St) (b : Bool) (st' : St), st.refreshToken ≠ none →
      checkAuth st = (Except.ok b, st') → b = st'.refreshToken.isSome) := by
  constructor
  · intro st h
    simp [checkAuth, h]
  · intro st b st' h heq
    unfold checkAuth at heq
    rw [if_neg h] at heq
    by_cases ha : st.accessToken = none
    · rw [if_pos ha] at heq
      rcases hrat : refreshAccessToken st with ⟨res, st2⟩
      rw [hrat] at heq
      cases res with
      | error e => simp at heq
      | ok b2 =>
          simp at heq
          obtain ⟨hb, hst⟩ := heq
          rw [← hst, ← hb]
    · rw [if_neg ha] at heq
      simp at heq
      obtain ⟨hb, hst⟩ := heq
      rw [← hst, ← hb]

/-- Witness for the amended C6 at concrete inputs. -/
theorem c6_checkAuth_amended_witness :
    checkAuth (initClient "e" "p" []) = login (initClient "e" "p" []) ∧
    true = c6WSt.refreshToken.isSome :=
  ⟨c6_checkAuth_amended.1 (initClient "e" "p" []) rfl,
   c6_checkAuth_amended.2 c6WSt true c6WSt (by decide) rfl⟩

theorem dictSet_mem {α : Type} (m : List (String × α)) (k : String) (v : α)
    (kv : String × α) (h : kv ∈ dictSet m k v) : kv ∈ m ∨ kv = (k, v) := by
  induction m with
  | nil =>
      simp [dictSet] at h
      exact Or.inr h
  | cons kv' rest ih =>
    obtain ⟨k', v'⟩ := kv'
    by_cases hk : k' = k
    · simp [dictSet, hk] at h
      rcases h with h | h
      · exact Or.inr h
      · exact Or.inl (by simp [h])
    · simp [dictSet, hk] at h
      rcases h with h | h
      · exact Or.inl (by simp [h])
      · rcases ih h with h2 | h2
        · exact Or.inl (by simp [h2])
        · exact Or.inr h2

theorem foldl_dictSet_mem {α β : Type} (l : List β) (key : β → String) (val : β → α)
    (acc : List (String × α)) (kv : String × α)
    (h : kv ∈ l.foldl (fun m x => dictSet m (key x) (val x)) acc) :
    kv ∈ acc ∨ ∃ x ∈ l, kv = (key x, val x) := by
  induction l generalizing acc with
  | nil => exact Or.inl h
  | cons x xs ih =>
    rcases ih (dictSet acc (key x) (val x)) h with h2 | h2
    · rcases dictSet_mem acc (key x) (val x) kv h2 with h3 | h3
      · exact Or.inl h3
      · exact Or.inr ⟨x, by simp, h3⟩
    · obtain ⟨y, hy, hkv⟩ := h2
      exact Or.inr ⟨y, by simp [hy], hkv⟩

/-- C7 counterexample: `refresh_collections("bird")` returns the full
cache, which here still contains an entry whose type tag is not
`CollectionBird`. -/
theorem c7_collections_counterexample :
    (refreshCollections "bird" c7CSt).1 =
      Except.ok [("c1", ⟨"CollectionFish", "c1"⟩), ("c2", ⟨"CollectionBird", "c2"⟩)] ∧
    ("c1", (⟨"CollectionFish", "c1"⟩ : CollectionRecord)) ∈
      [("c1", (⟨"CollectionFish", "c1"⟩ : CollectionRecord)),
       ("c2", (⟨"CollectionBird", "c2"⟩ : CollectionRecord))] ∧
    "CollectionFish" ≠ "CollectionBird" := by
  refine ⟨rfl, by simp, by decide⟩

/-- C7 amended: the entries `refresh_collections` adds are exactly the
incoming records whose type tag matches `Collection<Capitalized
of_type>`, keyed by id and merged insert-or-replace into the cache; the
returned mapping is the full cache, so it contains only `CollectionBird`
entries only when the prior cache already did. -/
theorem c7_collections_amended :
    ∀ (st : St) (a r : String) (ds : List CollectionRecord)
      (rest : List ExecResult) (ofType : String),
      st.accessToken = some a → st.refreshToken = some r →
      st.env = ExecResult.withData (GqlData.meCollections ds) :: rest →
      (refreshCollections ofType st).1 =
        Except.ok (refreshCollections ofType st).2.collections ∧
      (refreshCollections ofType st).2.collections =
        ((ds.filter (fun d =>
            decide (d.typename = "Collection" ++ pyCapitalize ofType))).foldl
          (fun m d => dictSet m d.id d) []).foldl
          (fun m kv => dictSet m kv.1 kv.2) st.collections ∧
      (∀ kv ∈ (refreshCollections ofType st).2.collections,
        kv ∈ st.collections ∨ kv.2.typename = "Collection" ++ pyCapitalize ofType) ∧
      ((∀ kv ∈ st.collections, kv.2.typename = "CollectionBird") → ofType = "bird" →
        ∀ kv ∈ (refreshCollections ofType st).2.collections,
          kv.2.typename = "CollectionBird") := by
  intro st a r ds rest ofType ha hr henv
  obtain ⟨e, p, atk, rtk, meF, fds, cols, lfd, ck, env, tr, dg⟩ := st
  simp only at ha hr henv
  subst ha hr henv
  have h1 : (refreshCollections ofType
      ⟨e, p, some a, some r, meF, fds, cols, lfd, ck,
        ExecResult.withData (GqlData.meCollections ds) :: rest, tr, dg⟩).1 =
      Except.ok (refreshCollections ofType
      ⟨e, p, some a, some r, meF, fds, cols, lfd, ck,
        ExecResult.withData (GqlData.meCollections ds) :: rest, tr, dg⟩).2.collections := by
    simp [refreshCollections, makeRequest, authAttempt, checkAuth, rawRequest,
      classify, headersOf]
  have h2 : (refreshCollections ofType
      ⟨e, p, some a, some r, meF, fds, cols, lfd, ck,
        ExecResult.withData (GqlData.meCollections ds) :: rest, tr, dg⟩).2.collections =
      ((ds.filter (fun d =>
          decide (d.typename = "Collection" ++ pyCapitalize ofType))).foldl
        (fun m d => dictSet m d.id d) []).foldl
        (fun m kv => dictSet m kv.1 kv.2) cols := by
    simp [refreshCollections, makeRequest, authAttempt, checkAuth, rawRequest,
      classify, headersOf]
  have hmem : ∀ kv ∈ ((ds.filter (fun d =>
          decide (d.typename = "Collection" ++ pyCapitalize ofType))).foldl
        (fun m d => dictSet m d.id d) []).foldl
        (fun m kv => dictSet m kv.1 kv.2) cols,
      kv ∈ cols ∨ kv.2.typename = "Collection" ++ pyCapitalize ofType := by
    intro kv hkv
    rcases foldl_dictSet_mem _ Prod.fst Prod.snd cols kv (by simpa using hkv) with h | h
    · exact Or.inl h
    · obtain ⟨x, hx, hkvx⟩ := h
      rcases foldl_dictSet_mem _ CollectionRecord.id id [] x hx with h3 | h3
      · cases h3
      · obtain ⟨d, hd, hxd⟩ := h3
        have hdt : d.typename = "Collection" ++ pyCapitalize ofType := by
          have := List.mem_filter.mp hd
          simpa using this.2
        rw [hkvx, hxd]
        exact Or.inr (by simpa using hdt)
  refine ⟨h1, h2, by rw [h2]; exact hmem, ?_⟩
  · intro hall hbird kv hkv
    rw [h2] at hkv
    rcases hmem kv hkv with h | h
    · exact hall kv h
    · rw [h, hbird]
      rfl

/-- Witness for the amended C7 at concrete inputs. -/
theorem c7_collections_amended_witness :
    (refreshCollections "bird" c7CSt).1 =
      Except.ok (refreshCollections "bird" c7CSt).2.collections ∧
    (∀ kv ∈ (refreshCollections "bird" c7CSt).2.collections,
      kv ∈ c7CSt.collections ∨
        kv.2.typename = "Collection" ++ pyCapitalize "bird") := by
  have h := c7_collections_amended c7CSt "A" "R" [⟨"CollectionBird", "c2"⟩] []
    "bird" rfl rfl rfl
  exact ⟨h.1, h.2.2.1⟩

/-- C10: `sighting_from_postcard` on an argument that is neither a
string nor a feed node fails with the unbound-name error before any
request, leaves the state unchanged, and that error is none of the
documented error kinds. -/
theorem c10_sighting_bad_arg :
    ∀ st : St,
      sightingFromPostcard PostcardArg.otherVal st =
        (Except.error BBError.nameErr, st) ∧
      BBError.nameErr ∉ documentedErrors := by
  intro st
  exact ⟨rfl, by decide⟩

theorem envWF_tail (l : List ExecResult) (h : envWF l) : envWF l.tail := by
  intro r hr
  cases l with
  | nil => cases hr
  | cons x xs => exact h r (List.mem_cons_of_mem x hr)

theorem rawRequest_spec (q : Query) (v : Variables) (hd : Headers) (st : St) :
    (rawRequest q v hd st).2.accessToken = st.accessToken ∧
    (rawRequest q v hd st).2.refreshToken = st.refreshToken ∧
    ((rawRequest q v hd st).2.env = st.env ∨
      (rawRequest q v hd st).2.env = st.env.tail) ∧
    ((rawRequest q v hd st).1 = ExecResult.noBody ∨
      (rawRequest q v hd st).1 ∈ st.env) := by
  cases henv : st.env <;> simp [rawRequest, henv]

theorem makeRequestNoAuth_spec (q : Query) (v : Variables) (st : St) :
    ((makeRequestNoAuth q v st).2.accessToken = st.accessToken ∨
      (makeRequestNoAuth q v st).2.accessToken = none) ∧
    (makeRequestNoAuth q v st).2.refreshToken = st.refreshToken ∧
    ((makeRequestNoAuth q v st).2.env = st.env ∨
      (makeRequestNoAuth q v st).2.env = st.env.tail) ∧
    (∀ d, (makeRequestNoAuth q v st).1 = Except.ok d →
      ExecResult.withData d ∈ st.env) := by
  cases henv : st.env with
  | nil => simp [makeRequestNoAuth, rawRequest, classify, henv]
  | cons r rest =>
    cases r with
    | noBody => simp [makeRequestNoAuth, rawRequest, classify, henv]
    | withErrors te =>
        cases te <;> simp [makeRequestNoAuth, rawRequest, classify, henv]
    | badData => simp [makeRequestNoAuth, rawRequest, classify, henv]
    | withData d => simp [makeRequestNoAuth, rawRequest, classify, henv]

theorem pres_of_fields {st st' : St}
    (hacc : st'.accessToken = st.accessToken ∨ st'.accessToken = none)
    (href : st'.refreshToken = st.refreshToken)
    (henv : st'.env = st.env ∨ st'.env = st.env.tail)
    (h : sessionInv st ∧ envWF st.env) : sessionInv st' ∧ envWF st'.env := by
  constructor
  · intro hs
    rcases hacc with hacc | hacc
    · rw [href]
      exact h.1 (by rw [← hacc]; exact hs)
    · rw [hacc] at hs
      cases hs
  · rcases henv with he | he
    · rw [he]
      exact h.2
    · rw [he]
      exact envWF_tail st.env h.2

theorem makeRequestNoAuth_pres (q : Query) (v : Variables) (st : St)
    (h : sessionInv st ∧ envWF st.env) :
    sessionInv (makeRequestNoAuth q v st).2 ∧
      envWF (makeRequestNoAuth q v st).2.env := by
  obtain ⟨h1, h2, h3, _⟩ := makeRequestNoAuth_spec q v st
  exact pres_of_fields h1 h2 h3 h

theorem saveMe_fields (meD : MeData) (st : St) :
    (saveMe meD st).2.accessToken = st.accessToken ∧
    (saveMe meD st).2.refreshToken = st.refreshToken ∧
    (saveMe meD st).2.env = st.env := by
  cases meD <;> simp [saveMe]

theorem login_pres (st : St) (h : sessionInv st ∧ envWF st.env) :
    sessionInv (login st).2 ∧ envWF (login st).2.env := by
  unfold login
  split
  · exact h
  · obtain ⟨hs1, hs2, hs3, hs4⟩ :=
      makeRequestNoAuth_spec Query.signIn
        (Variables.signInVars st.email st.password) st
    split
    · rename_i e st' heq
      rw [heq] at hs1 hs2 hs3
      simp at hs1 hs2 hs3
      by_cases hg : isGraphqlErr e <;> simp [hg] <;> exact pres_of_fields hs1 hs2 hs3 h
    · rename_i atk rtk meD st' heq
      rw [heq] at hs1 hs2 hs3 hs4
      simp at hs1 hs2 hs3 hs4
      have hwfr : tokenWF (ExecResult.withData (GqlData.authSignIn atk rtk meD)) :=
        h.2 _ hs4
      have hfields := saveMe_fields meD
        { st' with accessToken := atk, refreshToken := rtk }
      constructor
      · intro hacc
        rw [hfields.2.1]
        rw [hfields.1] at hacc
        simp at hacc ⊢
        exact hwfr (by simpa using hacc)
      · rw [hfields.2.2]
        simp only
        rcases hs3 with he | he
        · rw [he]
          exact h.2
        · rw [he]
          exact envWF_tail st.env h.2
    · rename_i st' heq hne
      rw [hne] at hs1 hs2 hs3
      simp at hs1 hs2 hs3
      exact pres_of_fields hs1 hs2 hs3 h

theorem refreshAccessToken_pres (st : St) (ha : st.accessToken = none)
    (h : sessionInv st ∧ envWF st.env) :
    sessionInv (refreshAccessToken st).2 ∧
      envWF (refreshAccessToken st).2.env := by
  unfold refreshAccessToken
  split
  · exact h
  · rename_i rt hrt
    obtain ⟨hs1, hs2, hs3, hs4⟩ :=
      makeRequestNoAuth_spec Query.refreshTokenQ (Variables.refreshVars rt) st
    split
    · rename_i e st' heq
      rw [heq] at hs1 hs2 hs3
      simp at hs1 hs2 hs3
      have hacc' : st'.accessToken = none := by
        rcases hs1 with h1 | h1
        · rw [h1, ha]
        · exact h1
      by_cases hg : isGraphqlErr e <;> simp [hg]
      · constructor
        · intro hcc
          simp [hacc'] at hcc
        · rcases hs3 with he | he
          · rw [he]
            exact h.2
          · rw [he]
            exact envWF_tail st.env h.2
      · exact pres_of_fields hs1 hs2 hs3 h
    · rename_i atk rtk st' heq
      rw [heq] at hs1 hs2 hs3 hs4
      simp at hs1 hs2 hs3 hs4
      have hwfr : tokenWF (ExecResult.withData (GqlData.authRefresh atk rtk)) :=
        h.2 _ hs4
      constructor
      · intro hacc
        simp at hacc ⊢
        exact hwfr (by simpa using hacc)
      · simp only
        rcases hs3 with he | he
        · rw [he]
          exact h.2
        · rw [he]
          exact envWF_tail st.env h.2
    · rename_i st' heq hne
      rw [hne] at hs1 hs2 hs3
      simp at hs1 hs2 hs3
      exact pres_of_fields hs1 hs2 hs3 h

theorem checkAuth_pres (st : St) (h : sessionInv st ∧ envWF st.env) :
    sessionInv (checkAuth st).2 ∧ envWF (checkAuth st).2.env := by
  unfold checkAuth
  split
  · exact login_pres st h
  · rename_i hrt
    split
    · rename_i ha
      have hp := refreshAccessToken_pres st ha h
      split
      · rename_i e st' heq
        rw [heq] at hp
        exact hp
      · rename_i b st' heq
        rw [heq] at hp
        exact hp
    · exact h

theorem authAttempt_pres (q : Query) (v : Variables) (st : St)
    (h : sessionInv st ∧ envWF st.env) :
    sessionInv (authAttempt q v st).2 ∧ envWF (authAttempt q v st).2.env := by
  unfold authAttempt
  have hca := checkAuth_pres st h
  split
  · rename_i e st' heq
    rw [heq] at hca
    exact hca
  · rename_i b st1 heq
    rw [heq] at hca
    simp at hca
    obtain ⟨hr1, hr2, hr3, _⟩ := rawRequest_spec q v (headersOf st1)
      { st1 with diag := st1.diag ++ [DiagEntry.vars (pyRedact v (shouldRedactQ q))] }
    simp at hr1 hr2 hr3
    dsimp only
    split
    · constructor
      · intro hacc
        simp at hacc
      · simp only
        rcases hr3 with he | he
        · rw [he]
          exact hca.2
        · rw [he]
          exact envWF_tail st1.env hca.2
    · exact pres_of_fields (Or.inl hr1) hr2 hr3 hca
    · refine pres_of_fields (Or.inl ?_) ?_ ?_ hca <;> simp [hr1, hr2]
      rcases hr3 with he | he
      · exact Or.inl he
      · exact Or.inr he

theorem makeRequest_pres (q : Query) (v : Variables) (st : St)
    (h : sessionInv st ∧ envWF st.env) :
    sessionInv (makeRequest q v st).2 ∧ envWF (makeRequest q v st).2.env := by
  unfold makeRequest
  have h1 := authAttempt_pres q v st h
  split
  · rename_i st' heq
    rw [heq] at h1
    exact authAttempt_pres q v st' h1
  · exact h1

theorem refreshOp_pres (st : St) (h : sessionInv st ∧ envWF st.env) :
    sessionInv (refreshOp st).2 ∧ envWF (refreshOp st).2.env := by
  unfold refreshOp
  have hp := makeRequest_pres Query.meQ Variables.noVars st h
  split
  · rename_i e st' heq
    rw [heq] at hp
    exact hp
  · rename_i meD st' heq
    rw [heq] at hp
    simp at hp
    have hf := saveMe_fields meD st'
    dsimp only
    refine ⟨?_, ?_⟩
    · intro hacc
      rw [hf.1] at hacc
      rw [hf.2.1]
      exact hp.1 hacc
    · rw [hf.2.2]
      exact hp.2
  · rename_i st' hno hne
    rw [hne] at hp
    exact hp

theorem feedOp_pres (n1 : Nat) (a1 : Option String) (l1 : Option Nat)
    (b1 : Option String) (st : St) (h : sessionInv st ∧ envWF st.env) :
    sessionInv (feedOp n1 a1 l1 b1 st).2 ∧ envWF (feedOp n1 a1 l1 b1 st).2.env := by
  unfold feedOp
  have hp := makeRequest_pres Query.feedQ
    (Variables.feedVars n1 (match a1 with
      | some a => if a = "" then none else some a
      | none => none)) st h
  dsimp only
  split
  · rename_i e st' heq
    rw [heq] at hp
    exact hp
  · rename_i nodes st' heq
    rw [heq] at hp
    exact hp
  · rename_i st' hno hne
    rw [hne] at hp
    exact hp

theorem refreshFeed_pres (since : SinceArg) (st : St)
    (h : sessionInv st ∧ envWF st.env) :
    sessionInv (refreshFeed since st).2 ∧ envWF (refreshFeed since st).2.env := by
  unfold refreshFeed
  have hp := feedOp_pres 20 none none none st h
  dsimp only
  split
  · rename_i e st' heq
    rw [heq] at hp
    exact hp
  · rename_i nodes st' heq
    rw [heq] at hp
    simp at hp
    split
    · exact hp
    · rename_i newest hnew
      dsimp only
      split
      · exact ⟨fun hacc => hp.1 hacc, hp.2⟩
      · exact hp

theorem feedNodesOp_pres (ty : String) (st : St)
    (h : sessionInv st ∧ envWF st.env) :
    sessionInv (feedNodesOp ty st).2 ∧ envWF (feedNodesOp ty st).2.env := by
  unfold feedNodesOp
  have hp := feedOp_pres 20 none none none st h
  split
  · rename_i e st' heq
    rw [heq] at hp
    exact hp
  · rename_i nodes st' heq
    rw [heq] at hp
    exact hp

theorem refreshCollections_pres (ty : String) (st : St)
    (h : sessionInv st ∧ envWF st.env) :
    sessionInv (refreshCollections ty st).2 ∧
      envWF (refreshCollections ty st).2.env := by
  unfold refreshCollections
  have hp := makeRequest_pres Query.collectionsQ Variables.noVars st h
  dsimp only
  split
  · rename_i e st' heq
    rw [heq] at hp
    exact hp
  · rename_i ds st' heq
    rw [heq] at hp
    simp at hp
    exact ⟨fun hacc => hp.1 hacc, hp.2⟩
  · rename_i st' hno hne
    rw [hne] at hp
    exact hp

theorem sightingRequest_pres (pid : String) (p : PostcardArg) (st : St)
    (h : sessionInv st ∧ envWF st.env) :
    sessionInv (sightingRequest pid p st).2 ∧
      envWF (sightingRequest pid p st).2.env := by
  unfold sightingRequest
  have hp := makeRequest_pres Query.postcardToSighting
    (Variables.postcardVars pid) st h
  split
  · rename_i e st' heq
    rw [heq] at hp
    exact hp
  · rename_i r st' heq
    rw [heq] at hp
    exact hp
  · rename_i st' hno hne
    rw [hne] at hp
    exact hp

theorem sightingFromPostcard_pres (p : PostcardArg) (st : St)
    (h : sessionInv st ∧ envWF st.env) :
    sessionInv (sightingFromPostcard p st).2 ∧
      envWF (sightingFromPostcard p st).2.env := by
  cases p with
  | str s => exact sightingRequest_pres s (PostcardArg.str s) st h
  | node n =>
      by_cases hty : n.nodeType = newPostcardType
      · have hrw : sightingFromPostcard (PostcardArg.node n) st =
            sightingRequest n.nodeId (PostcardArg.node n) st := by
          simp [sightingFromPostcard, hty]
        rw [hrw]
        exact sightingRequest_pres n.nodeId (PostcardArg.node n) st h
      · have hrw : sightingFromPostcard (PostcardArg.node n) st =
            (Except.error BBError.assertionFailed, st) := by
          simp [sightingFromPostcard, hty]
        rw [hrw]
        exact h
  | otherVal => exact h

theorem finishPostcard_pres (fid : String) (arg : FinishArg) (st : St)
    (h : sessionInv st ∧ envWF st.env) :
    sessionInv (finishPostcard fid arg st).2 ∧
      envWF (finishPostcard fid arg st).2.env := by
  cases arg with
  | notASighting => exact h
  | valid ps =>
      unfold finishPostcard
      dsimp only
      split
      · exact h
      · have hp := makeRequest_pres Query.finishSighting
          (Variables.finishVars fid
            ((ps.report.sightings.filter (fun s => s.isUnlocked)).map
              (fun s => s.coverMedia))
            [] ps.report.token) st h
        split
        · rename_i e st' heq
          rw [heq] at hp
          exact hp
        · rename_i b st' heq
          rw [heq] at hp
          exact hp
        · rename_i st' hno hne
          rw [hne] at hp
          exact hp

theorem clearSession_pres (st : St) (h : sessionInv st ∧ envWF st.env) :
    sessionInv (clearSession st) ∧ envWF (clearSession st).env := by
  refine ⟨?_, h.2⟩
  intro hacc
  simp [clearSession] at hacc

theorem clientStep_pres {st st' : St} (hs : ClientStep st st')
    (h : sessionInv st ∧ envWF st.env) : sessionInv st' ∧ envWF st'.env := by
  cases hs with
  | refresh => exact refreshOp_pres st h
  | feed n1 a1 l1 b1 => exact feedOp_pres n1 a1 l1 b1 st h
  | refreshFeedS since => exact refreshFeed_pres since st h
  | feedNodes ty => exact feedNodesOp_pres ty st h
  | refreshCollectionsS ty => exact refreshCollections_pres ty st h
  | sighting p => exact sightingFromPostcard_pres p st h
  | finish fid arg => exact finishPostcard_pres fid arg st h
  | request q v => exact makeRequest_pres q v st h
  | requestNoAuth q v => exact makeRequestNoAuth_pres q v st h
  | clear => exact clearSession_pres st h

/-- C3 counterexample: with a sign-in response that carries an access
token but a null refresh token (the code reads both fields without
checking), a reachable state holds an access token and no refresh
token, violating the claimed invariant. -/
theorem c3_invariant_counterexample :
    ClientReachable c3Bad ∧ c3Bad.accessToken = some "A" ∧
      c3Bad.refreshToken = none :=
  ⟨ClientReachable.step (ClientReachable.init "e" "p" c3Env)
      (ClientStep.refresh (initClient "e" "p" c3Env)),
   rfl, rfl⟩

/-- C3 amended: the invariant (access token present implies refresh
token present) holds at construction and is preserved by every
operation, provided every sign-in and token-refresh response that
carries an access token also carries a refresh token. -/
theorem c3_invariant_amended :
    ∀ st : St, ClientReachableWF st → sessionInv st := by
  have key : ∀ st : St, ClientReachableWF st → sessionInv st ∧ envWF st.env := by
    intro st h
    induction h with
    | init e p env hwf =>
        refine ⟨?_, hwf⟩
        intro hacc
        simp [initClient] at hacc
    | step hr hs ih => exact clientStep_pres hs ih
  intro st h
  exact (key st h).1

/-- Witness for the amended C3 at a concrete reachable state. -/
theorem c3_invariant_amended_witness : sessionInv (initClient "e" "p" []) :=
  c3_invariant_amended (initClient "e" "p" [])
    (ClientReachableWF.init "e" "p" [] (by intro r hr; cases hr))
